import Mathlib

/-!
Shallow embedding of the core of the `git-bug` repository (packages `bug`,
`cache` and `identity`), together with theorems settling the frozen claims
about its specification.

Conventions: Go strings become `String`, `git.Hash` becomes `String`,
Go slices become `List`, Go maps become association lists, lamport times
become `Nat`, a Go `panic` becomes `Option.none`, and a Go `error` result
becomes an explicit error sum. Functions are translated from the source
files; a definition whose source file is absent from the snapshot is
modelled from the specification and says so in its doc comment.
-/

namespace GitBug

/-- A content address (git.Hash): a hex string. -/
abbrev Hash := String

/-- Bug status (bug.Status): open or closed. -/
inductive Status where
  | OpenStatus
  | ClosedStatus
deriving DecidableEq, Repr

/-- Modelled from the spec (§4.5): `BugExcerpt` (bug_excerpt.go is not under
src/); the compact denormalized summary of a bug held by the repo cache. -/
structure BugExcerpt where
  Id : String
  AuthorId : String
  CreateTime : Int
  EditTime : Int
  Status : Status
  Labels : List String
  Title : String
  LenComments : Nat
  CreateMetadata : List (String × String)
deriving DecidableEq, Repr

/-- Go map read `m[key]` with the string zero value: returns the bound value
or `""` when the key is absent (as in `excerpt.CreateMetadata[key]`). -/
def lookupDefault (m : List (String × String)) (k : String) : String :=
  match m.find? (fun q => decide (q.1 = k)) with
  | some q => q.2
  | none => ""

/-- Ordering key of a bug query (cache.OrderBy). -/
inductive OrderBy where
  | ById
  | ByCreation
  | ByEdit
deriving DecidableEq, Repr

/-- Ordering direction of a bug query (cache.OrderDirection). -/
inductive OrderDirection where
  | Ascending
  | Descending
deriving DecidableEq, Repr

/-- Modelled from the spec (§4.6): a compiled query (query.go is not under
src/): a conjunction of excerpt filters, carried here as its compiled
predicate, plus the ordering spec. -/
structure Query where
  Match : BugExcerpt → Bool
  OrderBy : OrderBy
  OrderDirection : OrderDirection

/-- The excerpt table of a `RepoCache`: the Go map `excerpts` as an
association list from bug id to excerpt. -/
structure RepoCache where
  excerpts : List (String × BugExcerpt)

/-- RepoCache.AllBugsIds (repo_cache.go): the `Id` field of every excerpt,
in table order. -/
def RepoCache.AllBugsIds (c : RepoCache) : List String :=
  c.excerpts.map (fun q => q.2.Id)

/-- Comparison used by the sorter selected in QueryBugs (sort.go). -/
def excerptLess (o : OrderBy) (a b : BugExcerpt) : Bool :=
  match o with
  | .ById => a.Id < b.Id
  | .ByCreation => a.CreateTime < b.CreateTime
  | .ByEdit => a.EditTime < b.EditTime

/-- RepoCache.QueryBugs (repo_cache.go): with a nil query, return
`AllBugsIds`; otherwise filter the excerpts through the query predicate,
sort them by the selected order (reversed when descending) and return the
ids. -/
def RepoCache.QueryBugs (c : RepoCache) (query : Option Query) : List String :=
  match query with
  | none => c.AllBugsIds
  | some q =>
    let filtered := (c.excerpts.map (fun p => p.2)).filter q.Match
    let le : BugExcerpt → BugExcerpt → Bool :=
      match q.OrderDirection with
      | .Ascending => fun a b => ! excerptLess q.OrderBy b a
      | .Descending => fun a b => ! excerptLess q.OrderBy a b
    (filtered.mergeSort le).map (fun e => e.Id)

/-- Errors of bug resolution in the cache (bug.ErrBugNotExist and
bug.ErrMultipleMatch). -/
inductive ResolveError where
  | notExist
  | multipleMatch (matching : List String)
deriving DecidableEq, Repr

/-- strings.HasPrefix over character lists: the first list starts with the
second. -/
def charsHavePre : List Char → List Char → Bool
  | _, [] => true
  | [], _ :: _ => false
  | a :: ss, b :: ps => a == b && charsHavePre ss ps

/-- The ids of the excerpt-table keys that start with the given id fragment
(the scan inside RepoCache.ResolveBugPrefix). -/
def matchingIds (excerpts : List (String × BugExcerpt)) (p : String) : List String :=
  (excerpts.map (fun q => q.1)).filter (fun id => charsHavePre id.data p.data)

/-- RepoCache.ResolveBugPrefix (repo_cache.go): collect the excerpt keys
having the fragment as a prefix; more than one match is an error carrying
the matches, zero matches is a not-found error, otherwise resolve the
unique id. -/
def ResolveBugShortId (excerpts : List (String × BugExcerpt)) (p : String) :
    Except ResolveError String :=
  let matching := matchingIds excerpts p
  if matching.length > 1 then .error (.multipleMatch matching)
  else if matching.length = 0 then .error .notExist
  else .ok (matching.headD "")

/-- The ids of excerpts whose create metadata reads the given value at the
given key (the scan inside RepoCache.ResolveBugCreateMetadata; a Go map
read, so an absent key reads as ""). -/
def matchingMetaIds (excerpts : List (String × BugExcerpt)) (k v : String) :
    List String :=
  (excerpts.filter (fun q => decide (lookupDefault q.2.CreateMetadata k = v))).map
    (fun q => q.1)

/-- RepoCache.ResolveBugCreateMetadata (repo_cache.go): same multiplicity
rules as the id-fragment resolution, over the create-metadata scan. -/
def ResolveBugCreateMetadata (excerpts : List (String × BugExcerpt)) (k v : String) :
    Except ResolveError String :=
  let matching := matchingMetaIds excerpts k v
  if matching.length > 1 then .error (.multipleMatch matching)
  else if matching.length = 0 then .error .notExist
  else .ok (matching.headD "")

/-! ## The process lock (repo_cache.go: lock, Close, repoIsAvailable) -/

/-- Errors raised by the lock-acquisition path. -/
inductive LockError where
  | sizeTooBig
  | badPid
  | alreadyLocked (pid : Nat)
deriving DecidableEq, Repr

/-- The filesystem and process environment seen by the lock code: the lock
file's content when the file exists, and the set of live process ids
(process.IsRunning). -/
structure LockState where
  lockFile : Option String
  running : List Nat
deriving DecidableEq, Repr

/-- Decimal digits to a number, most significant first. -/
def digitsToNat (l : List Char) : Nat :=
  l.foldl (fun n c => n * 10 + (c.toNat - 48)) 0

/-- strconv.Atoi restricted to the unsigned decimal numerals the lock code
writes: all-digit non-empty content parses, anything else is an error. -/
def parsePid (l : List Char) : Option Nat :=
  if l.isEmpty then none
  else if l.all (fun c => c.isDigit) then some (digitsToNat l)
  else none

/-- The pid-reading step of repoIsAvailable: read at most 10 bytes
(io.LimitReader over the file's characters), reject the file when 10
bytes came back, then parse the decimal pid. -/
def readLockPid (content : String) : Except LockError Nat :=
  let buf := content.data.take 10
  if buf.length = 10 then .error .sizeTooBig
  else match parsePid buf with
    | none => .error .badPid
    | some pid => .ok pid

/-- repoIsAvailable (repo_cache.go): nothing to do when no lock file
exists; otherwise read the recorded pid (erroring on a 10-byte read or
unparsable content), fail when that pid is alive, and remove the stale
file when it is not. Returns the error, if any, paired with the resulting
filesystem state. -/
def repoIsAvailable (s : LockState) : Option LockError × LockState :=
  match s.lockFile with
  | none => (none, s)
  | some content =>
    match readLockPid content with
    | .error e => (some e, s)
    | .ok pid =>
      if pid ∈ s.running then (some (.alreadyLocked pid), s)
      else (none, { s with lockFile := none })

/-- RepoCache.lock (repo_cache.go): check availability, then create the
lock file holding the caller's decimal pid. -/
def lock (s : LockState) (selfPid : Nat) : Option LockError × LockState :=
  match repoIsAvailable s with
  | (some e, s2) => (some e, s2)
  | (none, s2) => (none, { s2 with lockFile := some (Nat.repr selfPid) })

/-! ## The operation model and snapshot (bug package) -/

/-- A comment of a snapshot (bug.Comment). The author is carried as an
identity id. -/
structure Comment where
  Message : String
  Author : String
  Files : List Hash
  UnixTime : Int
deriving DecidableEq, Repr

/-- Modelled from the spec (§3) and TestEdit (timeline.go is not under
src/): the shared payload of create and comment timeline items
(bug.CommentTimelineItem): the source operation's hash and the edit
history, original first. -/
structure CommentTimelineItem where
  hash : Hash
  History : List Comment
deriving DecidableEq, Repr

/-- bug.NewCommentTimelineItem: a fresh item whose history is the original
comment alone. -/
def NewCommentTimelineItem (h : Hash) (c : Comment) : CommentTimelineItem :=
  { hash := h, History := [c] }

/-- CommentTimelineItem.Append: record one more revision in the edit
history. -/
def CommentTimelineItem.Append (item : CommentTimelineItem) (c : Comment) :
    CommentTimelineItem :=
  { item with History := item.History ++ [c] }

/-- A timeline entry (bug.TimelineItem), tagged by the dynamic Go type it
holds: `*CreateTimelineItem`, `*AddCommentTimelineItem`, a bare
`*CommentTimelineItem` (representable, never produced by the operations),
or any other item kind (set-status, set-title, label-change), of which
only the hash matters here. -/
inductive TimelineItem where
  | createItem (item : CommentTimelineItem)
  | addCommentItem (item : CommentTimelineItem)
  | bareCommentItem (item : CommentTimelineItem)
  | otherItem (h : Hash)
deriving DecidableEq, Repr

/-- TimelineItem.Hash(): every item kind exposes the hash of its source
operation. -/
def TimelineItem.itemHash : TimelineItem → Hash
  | .createItem item => item.hash
  | .addCommentItem item => item.hash
  | .bareCommentItem item => item.hash
  | .otherItem h => h

/-- The compiled view of a bug (bug.Snapshot), restricted to the fields the
operations below touch or that the frame claims mention. -/
structure Snapshot where
  id : String
  Title : String
  Status : Status
  Comments : List Comment
  Labels : List String
  Timeline : List TimelineItem
  Author : String
  CreatedAt : Int
deriving DecidableEq, Repr

/-- The Go zero value `Snapshot{}` that TestEdit starts from. -/
def emptySnapshot : Snapshot :=
  { id := "", Title := "", Status := .OpenStatus, Comments := [], Labels := [],
    Timeline := [], Author := "", CreatedAt := 0 }

/-- bug.CreateOperation (op_create.go). The base header carries the author,
the wall-clock time and an abstract well-formedness verdict standing for
opBaseValidate (op_base.go is not under src/); the operation's content
hash (op.Hash()) is carried as a recorded value. -/
structure CreateOperation where
  baseOk : Bool
  Author : String
  UnixTime : Int
  Title : String
  Message : String
  Files : List Hash
  opHash : Hash
deriving DecidableEq, Repr

/-- CreateOperation.Apply (op_create.go): set the title, author and
creation time, seed the comments with the one new comment (its Files field
is left at its zero value by the source), and seed the timeline with one
create-item wrapping that comment. -/
def CreateOperation.Apply (op : CreateOperation) (s : Snapshot) : Snapshot :=
  let comment : Comment :=
    { Message := op.Message, Author := op.Author, Files := [],
      UnixTime := op.UnixTime }
  { s with
    Title := op.Title,
    Comments := [comment],
    Author := op.Author,
    CreatedAt := op.UnixTime,
    Timeline := [.createItem (NewCommentTimelineItem op.opHash comment)] }

/-- The error distinguishing which check of CreateOperation.Validate
failed; each constructor mirrors one fmt.Errorf of the source. -/
inductive CreateValidationError where
  | baseError
  | titleEmpty
  | titleMultiline
  | titleNotPrintable
  | messageNotPrintable
deriving DecidableEq, Repr

/-- Modelled from the spec (§3, util/text is not under src/): a character
is printable unless it is a control character; tab, carriage return and
line feed are tolerated. -/
def printableChar (c : Char) : Bool :=
  (32 ≤ c.toNat && c.toNat != 127) || c == '\n' || c == '\t' || c == '\r'

/-- Modelled from the spec ("printable", util/text.Safe is not under
src/): every character of the string is printable. -/
def textSafe (s : String) : Bool :=
  s.data.all printableChar

/-- Modelled from the spec ("non-empty", util/text.Empty is not under
src/): the string is the empty string. -/
def textEmpty (s : String) : Bool :=
  s.isEmpty

/-- CreateOperation.Validate (op_create.go): base header first, then
reject an empty title, a title with an embedded newline, a not fully
printable title, and a not fully printable message, in that order. -/
def CreateOperation.Validate (op : CreateOperation) :
    Option CreateValidationError :=
  if ! op.baseOk then some .baseError
  else if textEmpty op.Title then some .titleEmpty
  else if op.Title.data.contains '\n' then some .titleMultiline
  else if ! textSafe op.Title then some .titleNotPrintable
  else if ! textSafe op.Message then some .messageNotPrintable
  else none

/-- Modelled from the spec (§4.3, op_add_comment.go is not under src/):
bug.AddCommentOperation, with the same header conventions as the create
operation. -/
structure AddCommentOperation where
  baseOk : Bool
  Author : String
  UnixTime : Int
  Message : String
  Files : List Hash
  opHash : Hash
deriving DecidableEq, Repr

/-- Modelled from the spec (§4.3) and TestEdit: AddCommentOperation.Apply
appends one comment and appends one comment-item to the timeline, the
item's history holding the original comment alone. -/
def AddCommentOperation.Apply (op : AddCommentOperation) (s : Snapshot) :
    Snapshot :=
  let comment : Comment :=
    { Message := op.Message, Author := op.Author, Files := op.Files,
      UnixTime := op.UnixTime }
  { s with
    Comments := s.Comments ++ [comment],
    Timeline :=
      s.Timeline ++ [.addCommentItem (NewCommentTimelineItem op.opHash comment)] }

/-- bug.EditCommentOperation (op_edit_comment.go). -/
structure EditCommentOperation where
  baseOk : Bool
  Author : String
  UnixTime : Int
  Target : Hash
  Message : String
  Files : List Hash
deriving DecidableEq, Repr

/-- The index-tracking type switch of EditCommentOperation.Apply: the item
kinds that make `commentIndex` advance are exactly `*CreateTimelineItem`
and the bare `*CommentTimelineItem` (the dynamic type of a comment entry,
`*AddCommentTimelineItem`, matches neither case). -/
def countsAsComment : TimelineItem → Nat
  | .createItem _ => 1
  | .bareCommentItem _ => 1
  | _ => 0

/-- The second type switch of EditCommentOperation.Apply: append the
revision to the found item when it is a create-item or an
add-comment-item; any other item is left as it is. -/
def appendRevision (c : Comment) : TimelineItem → TimelineItem
  | .createItem item => .createItem (item.Append c)
  | .addCommentItem item => .addCommentItem (item.Append c)
  | t => t

/-- The search loop of EditCommentOperation.Apply: walk the timeline until
an item's hash equals the target, accumulating the comment index; `none`
when no item matches, otherwise the timeline with the revision appended to
the found item, paired with the accumulated index. -/
def editLoop (target : Hash) (c : Comment) :
    List TimelineItem → Nat → Option (List TimelineItem × Nat)
  | [], _ => none
  | item :: rest, idx =>
    if item.itemHash = target then some (appendRevision c item :: rest, idx)
    else
      match editLoop target c rest (idx + countsAsComment item) with
      | none => none
      | some (tl, i) => some (item :: tl, i)

/-- In-place update of one list position, a no-op out of range. -/
def modifyAt (f : α → α) : Nat → List α → List α
  | _, [] => []
  | 0, x :: xs => f x :: xs
  | n + 1, x :: xs => x :: modifyAt f n xs

/-- EditCommentOperation.Apply (op_edit_comment.go): find the timeline item
whose hash equals the target, tracking the comment index through the
first type switch; when no item matches the edit is a no-op; otherwise
append the revision to the found item (when its kind accepts one) and
overwrite the message and files of the comment at the tracked index. The
revision comment's author is left at its zero value by the source. -/
def EditCommentOperation.Apply (op : EditCommentOperation) (s : Snapshot) :
    Snapshot :=
  let c : Comment :=
    { Message := op.Message, Author := "", Files := op.Files,
      UnixTime := op.UnixTime }
  match editLoop op.Target c s.Timeline 0 with
  | none => s
  | some (tl, idx) =>
    { s with
      Timeline := tl,
      Comments :=
        modifyAt (fun old => { old with Message := op.Message, Files := op.Files })
          idx s.Comments }

/-! ## The identity model (identity package) -/

/-- identity.Key (from the source): a GPG key of an identity version. -/
structure Key where
  Fingerprint : String
  PubKey : String
deriving DecidableEq, Repr

/-- Modelled from the spec (§3, version.go is not under src/):
identity.Version records name, email, login, avatar url, keys, a nonce,
the wall-clock time and the lamport logical time; the verdict of the
per-version Version.Validate, whose checks are not under src/ either, is
carried as a recorded value. -/
structure Version where
  Name : String
  Email : String
  Login : String
  AvatarUrl : String
  Keys : List Key
  Nonce : String
  UnixTime : Int
  Time : Nat
  selfValid : Bool
deriving DecidableEq, Repr

/-- identity.Identity (from the source): an id and the version chain. -/
structure Identity where
  id : String
  Versions : List Version
deriving DecidableEq, Repr

/-- The loop of Identity.Validate: each version must be valid on its own,
and no version's lamport time may be below the running predecessor time. -/
def validateVersions : Nat → List Version → Bool
  | _, [] => true
  | lastTime, v :: rest =>
    if ! v.selfValid then false
    else if v.Time < lastTime then false
    else validateVersions v.Time rest

/-- Identity.Validate (from the source): walk the version chain with the
predecessor time starting at 0. The source reports the first failure as an
error; the Boolean records whether it reports any. -/
def Identity.Validate (i : Identity) : Bool :=
  validateVersions 0 i.Versions

/-- The loop of Identity.ValidKeysAtTime: walk the versions, returning the
accumulated keys at the first version beyond the given time. -/
def validKeysLoop (time : Nat) : List Version → List Key → List Key
  | [], result => result
  | v :: rest, result =>
    if time < v.Time then result
    else validKeysLoop time rest v.Keys

/-- Identity.ValidKeysAtTime (from the source): the keys accumulated from
the versions not beyond the given lamport time, starting from the empty
set. -/
def Identity.ValidKeysAtTime (i : Identity) (time : Nat) : List Key :=
  validKeysLoop time i.Versions []

/-- Identity.LastVersion (from the source): the last version of the chain;
the source panics on an empty chain, rendered as `none`. -/
def Identity.LastVersion (i : Identity) : Option Version :=
  i.Versions.getLast?

/-- Identity.DisplayName (from the source): the switch over the last
version's name and login; the panic on two empty fields (and the panic of
the underlying accessors on an empty chain) is rendered as `none`. -/
def Identity.DisplayName (i : Identity) : Option String :=
  match i.LastVersion with
  | none => none
  | some v =>
    if v.Name = "" ∧ v.Login ≠ "" then some v.Login
    else if v.Name ≠ "" ∧ v.Login = "" then some v.Name
    else if v.Name ≠ "" ∧ v.Login ≠ "" then
      some (v.Name ++ " (" ++ v.Login ++ ")")
    else none

/-- cache.IdentityExcerpt (from the source): the denormalized identity
summary held by the cache. -/
structure IdentityExcerpt where
  Id : String
  Name : String
  Login : String
  ImmutableMetadata : List (String × String)
deriving DecidableEq, Repr

/-- IdentityExcerpt.DisplayName (from the source): the same switch as the
full identity's, over the excerpt's own name and login fields; the panic
on two empty fields is rendered as `none`. -/
def IdentityExcerpt.DisplayName (e : IdentityExcerpt) : Option String :=
  if e.Name = "" ∧ e.Login ≠ "" then some e.Login
  else if e.Name ≠ "" ∧ e.Login = "" then some e.Name
  else if e.Name ≠ "" ∧ e.Login ≠ "" then
    some (e.Name ++ " (" ++ e.Login ++ ")")
  else none

/-- Edit-history length of a timeline item; 0 for items that carry none. -/
def TimelineItem.historyLength : TimelineItem → Nat
  | .createItem item => item.History.length
  | .addCommentItem item => item.History.length
  | .bareCommentItem item => item.History.length
  | .otherItem _ => 0

/-! ## Concrete instances used by witnesses and counterexamples -/

/-- A throwaway excerpt with the given id, status and create metadata. -/
def sampleExcerpt (id : String) (st : Status) (meta : List (String × String)) :
    BugExcerpt :=
  { Id := id, AuthorId := "a", CreateTime := 0, EditTime := 0, Status := st,
    Labels := [], Title := "t", LenComments := 1, CreateMetadata := meta }

/-- A cache holding a single closed bug. -/
def closedOnlyCache : RepoCache :=
  { excerpts := [("b1", sampleExcerpt "b1" .ClosedStatus [])] }

/-- The create operation of the three-comment scenario. -/
def scenarioCreate : CreateOperation :=
  { baseOk := true, Author := "alice", UnixTime := 1, Title := "title",
    Message := "m0", Files := [], opHash := "h0" }

/-- The first added comment of the three-comment scenario. -/
def scenarioComment1 : AddCommentOperation :=
  { baseOk := true, Author := "alice", UnixTime := 2, Message := "m1",
    Files := [], opHash := "h1" }

/-- The second added comment of the three-comment scenario. -/
def scenarioComment2 : AddCommentOperation :=
  { baseOk := true, Author := "alice", UnixTime := 3, Message := "m2",
    Files := [], opHash := "h2" }

/-- The snapshot compiled from create m0, add-comment m1, add-comment m2:
three comments, timeline hashes h0, h1, h2. -/
def scenarioSnapshot : Snapshot :=
  scenarioComment2.Apply (scenarioComment1.Apply (scenarioCreate.Apply emptySnapshot))

/-- An edit of the scenario's last comment (target h2). -/
def scenarioEdit : EditCommentOperation :=
  { baseOk := true, Author := "alice", UnixTime := 4, Target := "h2",
    Message := "edited", Files := [] }

/-- A sample GPG key. -/
def keyA : Key := { Fingerprint := "fpA", PubKey := "pkA" }

/-- Another sample GPG key. -/
def keyB : Key := { Fingerprint := "fpB", PubKey := "pkB" }

/-- A version with the given name, login, lamport time and keys. -/
def mkVersion (nm lg : String) (t : Nat) (ks : List Key) : Version :=
  { Name := nm, Email := "e", Login := lg, AvatarUrl := "", Keys := ks,
    Nonce := "n", UnixTime := 0, Time := t, selfValid := true }

/-- An identity whose two versions hold keyA from lamport time 1 and keyB
from lamport time 3. -/
def identityA : Identity :=
  { id := "idA", Versions := [mkVersion "Ada" "" 1 [keyA], mkVersion "Ada" "" 3 [keyB]] }

/-- An identity with one version carrying both a name and a login. -/
def identityB : Identity :=
  { id := "idB", Versions := [mkVersion "Ada" "lovelace" 1 []] }

/-- The excerpt denormalized from identityB. -/
def identityExcerptB : IdentityExcerpt :=
  { Id := "idB", Name := "Ada", Login := "lovelace", ImmutableMetadata := [] }

/-- Lamport-time ordering of identity versions is transitive. -/
instance : IsTrans Version (fun a b => a.Time ≤ b.Time) :=
  ⟨fun _ _ _ h1 h2 => le_trans h1 h2⟩

/-! ## Theorems -/

/-- The length of a string is the length of its character data. -/
theorem string_length_data (s : String) : s.length = s.data.length := rfl

/-- Claim C1 (amended): when no query is supplied (a nil query), QueryBugs
returns the id of every excerpt of the cache, whatever its status and with
no ordering applied: it is exactly the all-ids listing. -/
theorem C1_nil_query_returns_all_ids :
    ∀ (c : RepoCache) (i : String),
      i ∈ c.QueryBugs none ↔ ∃ q ∈ c.excerpts, q.2.Id = i := by
  intro c i
  simp [RepoCache.QueryBugs, RepoCache.AllBugsIds]

/-- Claim C1 counterexample: a cache holding a single closed bug; QueryBugs
with a nil query returns that bug, whereas the claim's default query
(status:open) would return nothing. -/
theorem C1_counterexample :
    closedOnlyCache.QueryBugs none = ["b1"] ∧
    (sampleExcerpt "b1" .ClosedStatus []).Status = .ClosedStatus :=
  ⟨rfl, rfl⟩

/-- Claim C2 (evaluation at the failing input): in the snapshot compiled
from create m0, add-comment m1, add-comment m2, editing the comment whose
timeline hash is h2 appends the revision to the right timeline item (h2's
history grows to 2) but overwrites Comments[1] instead of Comments[2]: the
index-tracking switch never counts add-comment items, so the comment index
stops at 1 (only the create-item counted). -/
theorem C2_wrong_comment_index :
    (scenarioEdit.Apply scenarioSnapshot).Comments.map (fun c => c.Message) =
      ["m0", "edited", "m2"] ∧
    (scenarioEdit.Apply scenarioSnapshot).Timeline.map
        (fun item => (item.itemHash, item.historyLength)) =
      [("h0", 1), ("h1", 1), ("h2", 2)] := by
  constructor <;> rfl

/-- The search loop of the edit operation finds nothing when no timeline
item carries the target hash. -/
theorem editLoop_eq_none (target : Hash) (c : Comment) :
    ∀ (items : List TimelineItem) (idx : Nat),
      (∀ item ∈ items, item.itemHash ≠ target) →
      editLoop target c items idx = none := by
  intro items
  induction items with
  | nil => intro idx _; rfl
  | cons item rest ih =>
    intro idx h
    have h1 : item.itemHash ≠ target := h item (List.mem_cons_self _ _)
    have h2 : ∀ x ∈ rest, x.itemHash ≠ target :=
      fun x hx => h x (List.mem_cons_of_mem _ hx)
    simp [editLoop, h1, ih _ h2]

/-- Claim C3: an edit-comment operation whose target hash matches no
timeline item leaves the snapshot completely unchanged. -/
theorem C3_edit_missing_target_noop :
    ∀ (op : EditCommentOperation) (s : Snapshot),
      (∀ item ∈ s.Timeline, item.itemHash ≠ op.Target) →
      op.Apply s = s := by
  intro op s h
  have hnone := editLoop_eq_none op.Target
    { Message := op.Message, Author := "", Files := op.Files,
      UnixTime := op.UnixTime } s.Timeline 0 h
  simp [EditCommentOperation.Apply, hnone]

/-- Claim C3 witness: an edit targeting hash zz applied to the empty
snapshot. -/
theorem C3_witness :
    EditCommentOperation.Apply
      { baseOk := true, Author := "", UnixTime := 0, Target := "zz",
        Message := "x", Files := [] } emptySnapshot = emptySnapshot :=
  C3_edit_missing_target_noop _ emptySnapshot
    (by intro item h; simp [emptySnapshot] at h)

/-- Claim C4 counterexample: a lock file of exactly 10 bytes holding the
decimal pid 1234567890 is at most 10 bytes long and parses, yet
availability checking rejects it on size. -/
theorem C4_counterexample :
    (repoIsAvailable { lockFile := some "1234567890", running := [] }).1 =
      some .sizeTooBig ∧
    "1234567890".length ≤ 10 ∧
    parsePid "1234567890".data = some 1234567890 := by
  refine ⟨rfl, by decide, rfl⟩

/-- The pid-reading step rejects the content on size exactly when it is 10
bytes or longer. -/
theorem readLockPid_size (content : String) :
    (readLockPid content = .error .sizeTooBig) ↔ 10 ≤ content.length := by
  cases hp : parsePid (content.data.take 10) with
  | none => simp [readLockPid, hp]
  | some pid => simp [readLockPid, hp]

/-- Claim C4 (amended): with an existing lock file, availability checking
errors on the file's size exactly when the content is 10 bytes or more
(well-formed content is at most 9 bytes), and a successful acquisition
writes a lock file holding exactly the holder's decimal pid. -/
theorem C4_lock_size_and_write :
    ∀ (s : LockState) (content : String) (selfPid : Nat),
      s.lockFile = some content →
      (((repoIsAvailable s).1 = some .sizeTooBig) ↔ 10 ≤ content.length) ∧
      ((lock s selfPid).1 = none →
        (lock s selfPid).2.lockFile = some (Nat.repr selfPid)) := by
  intro s content selfPid h
  constructor
  · unfold repoIsAvailable
    rw [h, ← readLockPid_size content]
    cases hr2 : readLockPid content with
    | error e => cases e <;> simp [hr2]
    | ok pid => by_cases hc : pid ∈ s.running <;> simp [hr2, hc]
  · intro hn
    unfold lock at hn ⊢
    rcases hr : repoIsAvailable s with ⟨e, s2⟩
    rw [hr] at hn
    cases e with
    | some e2 => exact Option.noConfusion hn
    | none => rfl

/-- Claim C4 witness: an 11-byte lock file is rejected on size; locking
over a 3-byte stale lock file writes the acquirer's decimal pid. -/
theorem C4_witness :
    (repoIsAvailable { lockFile := some "12345678901", running := [] }).1 =
      some .sizeTooBig ∧
    (lock { lockFile := some "123", running := [] } 42).2.lockFile =
      some (Nat.repr 42) :=
  ⟨(C4_lock_size_and_write { lockFile := some "12345678901", running := [] }
      "12345678901" 7 rfl).1.mpr (by decide),
   (C4_lock_size_and_write { lockFile := some "123", running := [] }
      "123" 42 rfl).2 (by decide)⟩

/-- Claim C5: with an existing lock file whose recorded pid could be read,
acquisition by a pid whose recorded holder is not alive removes the stale
file and writes its own decimal pid, while a live recorded holder makes
acquisition fail and leaves the file as it was. -/
theorem C5_stale_vs_live_lock :
    ∀ (s : LockState) (content : String) (pid selfPid : Nat),
      s.lockFile = some content →
      readLockPid content = .ok pid →
      ((pid ∉ s.running →
          lock s selfPid =
            (none, { lockFile := some (Nat.repr selfPid), running := s.running })) ∧
       (pid ∈ s.running →
          lock s selfPid = (some (.alreadyLocked pid), s))) := by
  intro s content pid selfPid h hr
  constructor
  · intro hc
    simp [lock, repoIsAvailable, h, hr, hc]
  · intro hc
    simp [lock, repoIsAvailable, h, hr, hc]

/-- Claim C5 witness: pid 99999 recorded but not alive is reclaimed and
overwritten with the acquirer's pid 7; a recorded live pid 5 makes
acquisition fail, keeping the file. -/
theorem C5_witness :
    lock { lockFile := some "99999", running := [1] } 7 =
      (none, { lockFile := some (Nat.repr 7), running := [1] }) ∧
    lock { lockFile := some "5", running := [5] } 42 =
      (some (.alreadyLocked 5), { lockFile := some "5", running := [5] }) :=
  ⟨(C5_stale_vs_live_lock { lockFile := some "99999", running := [1] }
      "99999" 99999 7 rfl rfl).1 (by decide),
   (C5_stale_vs_live_lock { lockFile := some "5", running := [5] }
      "5" 5 42 rfl rfl).2 (by decide)⟩

/-- Claim C6: create-operation validation succeeds exactly when the base
header is well formed, the title is non-empty, contains no newline and is
fully printable, and the message is fully printable; each failure is one
constructor of the typed error. -/
theorem C6_create_validate_iff :
    ∀ op : CreateOperation,
      op.Validate = none ↔
        (op.baseOk = true ∧ textEmpty op.Title = false ∧
         op.Title.data.contains '\n' = false ∧ textSafe op.Title = true ∧
         textSafe op.Message = true) := by
  intro op
  unfold CreateOperation.Validate
  split_ifs with h1 h2 h3 h4 h5 <;> simp_all

/-- Claim C7: both resolution scans follow the multiplicity rules: zero
matches is a not-found error, more than one match is an ambiguity error
carrying the full match list, exactly one match resolves to it. -/
theorem C7_resolve_multiplicity :
    ∀ (excerpts : List (String × BugExcerpt)) (p k v : String),
      ((matchingIds excerpts p = [] →
          ResolveBugShortId excerpts p = .error .notExist) ∧
       (1 < (matchingIds excerpts p).length →
          ResolveBugShortId excerpts p =
            .error (.multipleMatch (matchingIds excerpts p))) ∧
       (∀ x, matchingIds excerpts p = [x] →
          ResolveBugShortId excerpts p = .ok x)) ∧
      ((matchingMetaIds excerpts k v = [] →
          ResolveBugCreateMetadata excerpts k v = .error .notExist) ∧
       (1 < (matchingMetaIds excerpts k v).length →
          ResolveBugCreateMetadata excerpts k v =
            .error (.multipleMatch (matchingMetaIds excerpts k v))) ∧
       (∀ x, matchingMetaIds excerpts k v = [x] →
          ResolveBugCreateMetadata excerpts k v = .ok x)) := by
  intro excerpts p k v
  refine ⟨⟨?_, ?_, ?_⟩, ?_, ?_, ?_⟩
  · intro h; simp [ResolveBugShortId, h]
  · intro h; simp [ResolveBugShortId, h, Nat.not_eq_zero_of_lt h]
  · intro x h; simp [ResolveBugShortId, h]
  · intro h; simp [ResolveBugCreateMetadata, h]
  · intro h; simp [ResolveBugCreateMetadata, h, Nat.not_eq_zero_of_lt h]
  · intro x h; simp [ResolveBugCreateMetadata, h]

/-- Claim C7 witness: one prefix match resolves, zero matches errors
not-found, two metadata matches error with the full list. -/
theorem C7_witness :
    ResolveBugShortId [("abc", sampleExcerpt "abc" .OpenStatus [("k", "v")])]
      "a" = .ok "abc" ∧
    ResolveBugShortId [("abc", sampleExcerpt "abc" .OpenStatus [])] "z" =
      .error .notExist ∧
    ResolveBugCreateMetadata
      [("abc", sampleExcerpt "abc" .OpenStatus [("k", "v")]),
       ("abd", sampleExcerpt "abd" .OpenStatus [("k", "v")])] "k" "v" =
      .error (.multipleMatch ["abc", "abd"]) :=
  ⟨(C7_resolve_multiplicity
      [("abc", sampleExcerpt "abc" .OpenStatus [("k", "v")])] "a" "k" "v").1.2.2
      "abc" rfl,
   (C7_resolve_multiplicity
      [("abc", sampleExcerpt "abc" .OpenStatus [])] "z" "k" "v").1.1 rfl,
   (C7_resolve_multiplicity
      [("abc", sampleExcerpt "abc" .OpenStatus [("k", "v")]),
       ("abd", sampleExcerpt "abd" .OpenStatus [("k", "v")])] "p" "k" "v").2.2.1
      (by decide)⟩

/-- The key-collection loop returns the keys of the last version within
the time bound, or the accumulator when none is, provided the version
times are pairwise non-decreasing. -/
theorem validKeysLoop_spec (t : Nat) :
    ∀ (vs : List Version) (acc : List Key),
      List.Pairwise (fun a b => a.Time ≤ b.Time) vs →
      validKeysLoop t vs acc =
        (match (vs.filter fun v => decide (v.Time ≤ t)).getLast? with
         | none => acc
         | some v => v.Keys) := by
  intro vs
  induction vs with
  | nil => intro acc _; rfl
  | cons v rest ih =>
    intro acc hp
    rcases List.pairwise_cons.mp hp with ⟨hv, hrest⟩
    by_cases hlt : t < v.Time
    · have hfilter : ((v :: rest).filter fun w => decide (w.Time ≤ t)) = [] := by
        rw [List.filter_eq_nil_iff]
        intro w hw
        rcases List.mem_cons.mp hw with rfl | hw
        · simp; omega
        · have := hv w hw
          simp; omega
      rw [hfilter]
      simp [validKeysLoop, hlt]
    · have hle : v.Time ≤ t := by omega
      have hfilter : ((v :: rest).filter fun w => decide (w.Time ≤ t)) =
          v :: (rest.filter fun w => decide (w.Time ≤ t)) := by
        simp [List.filter_cons, hle]
      rw [hfilter]
      have step : validKeysLoop t (v :: rest) acc = validKeysLoop t rest v.Keys := by
        simp [validKeysLoop, hlt]
      rw [step, ih v.Keys hrest]
      cases hf : (rest.filter fun w => decide (w.Time ≤ t)) with
      | nil => simp
      | cons x xs =>
        rw [List.getLast?_cons_cons]
        cases hg : (x :: xs).getLast? with
        | none => exact absurd hg (by simp)
        | some w => rfl

/-- Claim C8: on an identity whose version times are non-decreasing along
the chain, the valid keys at a lamport time are exactly the keys of the
latest version not beyond that time, and empty when every version is
beyond it. -/
theorem C8_valid_keys_at_time :
    ∀ (i : Identity) (t : Nat),
      List.Chain' (fun a b => a.Time ≤ b.Time) i.Versions →
      i.ValidKeysAtTime t =
        (match (i.Versions.filter fun v => decide (v.Time ≤ t)).getLast? with
         | none => []
         | some v => v.Keys) := by
  intro i t hc
  have hp := List.chain'_iff_pairwise.mp hc
  exact validKeysLoop_spec t i.Versions [] hp

/-- Claim C8 witness: identityA has versions at times 1 and 3; at time 2
the valid keys are those of the first version. -/
theorem C8_witness : identityA.ValidKeysAtTime 2 = [keyA] :=
  (C8_valid_keys_at_time identityA 2
    (by simp [identityA, mkVersion, List.chain'_cons])).trans rfl

/-- The validation walk accepts exactly the chains whose versions are all
self-valid, whose times are adjacent-non-decreasing, and whose first time
is at least the running predecessor time. -/
theorem validateVersions_spec :
    ∀ (vs : List Version) (t : Nat),
      validateVersions t vs = true ↔
        ((∀ v ∈ vs, v.selfValid = true) ∧
         List.Chain' (fun a b => a.Time ≤ b.Time) vs ∧
         (∀ v ∈ vs.head?, t ≤ v.Time)) := by
  intro vs
  induction vs with
  | nil => intro t; simp [validateVersions]
  | cons v rest ih =>
    intro t
    by_cases hv : v.selfValid = true
    · by_cases ht : v.Time < t
      · simp [validateVersions, hv, ht]
      · have ht2 : t ≤ v.Time := by omega
        simp [validateVersions, hv, ht, ih v.Time, List.chain'_cons', ht2]
        tauto
    · simp [validateVersions, hv]

/-- Claim C9: identity validation succeeds exactly when every version is
itself valid and the lamport times are non-decreasing along the chain; it
errors whenever some version's time drops below its predecessor's or some
version is invalid. -/
theorem C9_validate_iff :
    ∀ i : Identity,
      i.Validate = true ↔
        ((∀ v ∈ i.Versions, v.selfValid = true) ∧
         List.Chain' (fun a b => a.Time ≤ b.Time) i.Versions) := by
  intro i
  unfold Identity.Validate
  rw [validateVersions_spec]
  simp

/-- Claim C10: the display name of a full identity and of an identity
excerpt agree as functions of the (name, login) pair: equal output, the
panic branch reached exactly when both are empty, and a non-empty string
otherwise. -/
theorem C10_display_name_equiv :
    ∀ (i : Identity) (e : IdentityExcerpt) (v : Version),
      i.LastVersion = some v → v.Name = e.Name → v.Login = e.Login →
      (i.DisplayName = e.DisplayName ∧
       (i.DisplayName = none ↔ (e.Name = "" ∧ e.Login = "")) ∧
       i.DisplayName ≠ some "") := by
  intro i e v hl hn hlg
  have hne : ∀ a b : String, a ≠ "" → a ++ " (" ++ b ++ ")" ≠ "" := by
    intro a b _ hq
    have hlen := congrArg String.length hq
    rw [String.length_append, String.length_append, String.length_append] at hlen
    have h2 : (" (" : String).length = 2 := rfl
    have h3 : ((")" : String)).length = 1 := rfl
    have h0 : ("" : String).length = 0 := rfl
    omega
  simp only [Identity.DisplayName, IdentityExcerpt.DisplayName, hl, ← hn, ← hlg]
  by_cases h1 : v.Name = "" <;> by_cases h2 : v.Login = "" <;>
    simp [h1, h2]
  exact hne v.Name v.Login h1

/-- Claim C10 witness: identityB (name Ada, login lovelace) and its
excerpt display the same non-empty string. -/
theorem C10_witness :
    Identity.DisplayName identityB = IdentityExcerpt.DisplayName identityExcerptB ∧
    (Identity.DisplayName identityB = none ↔
      (identityExcerptB.Name = "" ∧ identityExcerptB.Login = "")) ∧
    Identity.DisplayName identityB ≠ some "" :=
  C10_display_name_equiv identityB identityExcerptB
    (mkVersion "Ada" "lovelace" 1 []) rfl rfl rfl

end GitBug
